import Mathlib

/-!
Shallow embedding of the local data layer of the coffee traceability app:
the record stores (`storageService`, `treeService`), the CSV/JSON
export-import codec, the reminder/notification engine
(`reminderService`), and the sheets sync client (`sheetsService`).

Dates are JS ISO strings; everything the code does with them goes
through `new Date(s).getTime()`, which we model as an explicit
parameter `time : String → Int` (epoch milliseconds). JS `Array.sort`
is stable (required since ES2019), so sorting is modelled with
`List.insertionSort`, which is stable as well.
-/

namespace CoffeeApp

/-- `ActivityType` union from `types/tree.ts`. -/
inductive ActivityType
  | harvest | fertilize | prune | process | observe | pestControl | mowing | planting
deriving DecidableEq, Repr

/-- The literal string value an `ActivityType` carries in JS. -/
def ActivityType.toStr : ActivityType → String
  | .harvest => "harvest"
  | .fertilize => "fertilize"
  | .prune => "prune"
  | .process => "process"
  | .observe => "observe"
  | .pestControl => "pestControl"
  | .mowing => "mowing"
  | .planting => "planting"

/-- `WeatherCondition` union from `types/tree.ts`. -/
inductive WeatherCondition
  | sunny | cloudy | rainy | stormy
deriving DecidableEq, Repr

/-- The literal string value a `WeatherCondition` carries in JS. -/
def WeatherCondition.toStr : WeatherCondition → String
  | .sunny => "sunny"
  | .cloudy => "cloudy"
  | .rainy => "rainy"
  | .stormy => "stormy"

/-- `WeatherData` from `types/tree.ts` (numbers modelled as `Int`). -/
structure WeatherData where
  temperature : Int
  maxTemperature : Option Int := none
  minTemperature : Option Int := none
  condition : WeatherCondition
  humidity : Option Int := none
  timestamp : String
deriving DecidableEq, Repr

/-- `AIDiagnosis` from `types/tree.ts`. -/
structure AIDiagnosis where
  disease : Option String := none
  pest : Option String := none
  ripeness : Option String := none
  advice : String
  confidence : Option Int := none
deriving DecidableEq, Repr

/-- `Activity` from `types/tree.ts`. -/
structure Activity where
  id : String
  type : ActivityType
  date : String
  treeId : Option String := none
  description : String
  numericValue : Option Int := none
  numericUnit : Option String := none
  photos : List String
  weather : Option WeatherData := none
  aiDiagnosis : Option AIDiagnosis := none
  createdAt : String
  updatedAt : String
deriving DecidableEq, Repr

/-- `Tree` from `types/tree.ts`. -/
structure Tree where
  id : String
  treeId : String
  name : Option String := none
  location : Option String := none
  plantedDate : Option String := none
  variety : Option String := none
  notes : Option String := none
  initialHeight : Option Int := none
  targetHeight : Option Int := none
  createdAt : String
  updatedAt : String
deriving DecidableEq, Repr

/-! ### Record store (`services/storage.ts` / `services/tree.ts`) -/

/-- The upsert step of `storageService.save`: replace the first record
with the same `id` in place (`findIndex` + assignment), append at the
end otherwise (`push`). -/
def upsertActivity (r : Activity) : List Activity → List Activity
  | [] => [r]
  | a :: rest => if a.id = r.id then r :: rest else a :: upsertActivity r rest

/-- The activity sort order of `storageService.save`:
`(a, b) => new Date(b.date).getTime() - new Date(a.date).getTime()`,
i.e. date descending. -/
def dateDesc (time : String → Int) (a b : Activity) : Prop :=
  time b.date ≤ time a.date

instance (time : String → Int) : DecidableRel (dateDesc time) := fun a b =>
  inferInstanceAs (Decidable (time b.date ≤ time a.date))

/-- `storageService.save`: upsert by id, then re-sort the whole
collection by date descending with JS's stable sort. -/
def storageSave (time : String → Int) (r : Activity) (l : List Activity) : List Activity :=
  (upsertActivity r l).insertionSort (dateDesc time)

/-- `storageService.delete`: `getAll().filter(a => a.id !== id)`. -/
def storageDelete (i : String) (l : List Activity) : List Activity :=
  l.filter (fun a => a.id != i)

/-- Records with a given id, as read back by `getAll()`. -/
def filterById (i : String) (l : List Activity) : List Activity :=
  l.filter (fun a => a.id == i)

/-- Pairwise-distinct record ids, the well-formedness invariant of a
stored activity collection. -/
def distinctIds (l : List Activity) : Prop :=
  l.Pairwise (fun a b => a.id ≠ b.id)

instance (l : List Activity) : Decidable (distinctIds l) :=
  inferInstanceAs (Decidable (l.Pairwise _))

/-! ### Helper lemmas for the store -/

theorem upsertActivity_filter_eq (r : Activity) :
    ∀ l : List Activity, distinctIds l →
      filterById r.id (upsertActivity r l) = [r] := by
  intro l
  induction l with
  | nil =>
    intro _
    simp [upsertActivity, filterById]
  | cons a rest ih =>
    intro h
    rw [distinctIds, List.pairwise_cons] at h
    obtain ⟨ha, hrest⟩ := h
    by_cases hid : a.id = r.id
    · have hnone : filterById r.id rest = [] := by
        rw [filterById, List.filter_eq_nil_iff]
        intro b hb
        simp only [beq_iff_eq]
        intro hbid
        exact (ha b hb) (hid.trans hbid.symm)
      simp [upsertActivity, hid, filterById, List.filter_cons] at hnone ⊢
      exact hnone
    · have hne : (a.id == r.id) = false := by
        simp [hid]
      simp only [upsertActivity, if_neg hid, filterById, List.filter_cons, hne]
      exact ih hrest

theorem upsertActivity_of_fresh (r : Activity) :
    ∀ l : List Activity, (∀ a ∈ l, a.id ≠ r.id) →
      upsertActivity r l = l ++ [r] := by
  intro l
  induction l with
  | nil => intro _; simp [upsertActivity]
  | cons a rest ih =>
    intro h
    have hne : a.id ≠ r.id := h a (List.mem_cons_self a rest)
    simp only [upsertActivity, if_neg hne, List.cons_append, List.cons.injEq, true_and]
    exact ih (fun b hb => h b (List.mem_cons_of_mem a hb))

theorem storageSave_perm_upsert (time : String → Int) (r : Activity) (l : List Activity) :
    (storageSave time r l).Perm (upsertActivity r l) :=
  List.perm_insertionSort (dateDesc time) (upsertActivity r l)

theorem storageSave_sorted (time : String → Int) (r : Activity) (l : List Activity) :
    (storageSave time r l).Sorted (dateDesc time) := by
  haveI : IsTotal Activity (dateDesc time) := ⟨fun a b => le_total _ _⟩
  haveI : IsTrans Activity (dateDesc time) :=
    ⟨fun _ _ _ h1 h2 => le_trans h2 h1⟩
  exact List.sorted_insertionSort (dateDesc time) (upsertActivity r l)

/-- C1: `save(r)` then `getAll()` on a well-formed store: exactly one
record carries `r.id` and it equals `r`; the result is the in-place
replace / append (as a permutation, the sort reorders it); and the
result is sorted by date descending. -/
theorem save_then_getAll (time : String → Int) (r : Activity) (l : List Activity)
    (h : distinctIds l) :
    filterById r.id (storageSave time r l) = [r]
    ∧ (storageSave time r l).Perm (upsertActivity r l)
    ∧ (storageSave time r l).Sorted (dateDesc time) := by
  refine ⟨?_, storageSave_perm_upsert time r l, storageSave_sorted time r l⟩
  have hp : (filterById r.id (storageSave time r l)).Perm
      (filterById r.id (upsertActivity r l)) :=
    (storageSave_perm_upsert time r l).filter _
  rw [upsertActivity_filter_eq r l h] at hp
  exact List.perm_singleton.mp hp

/-- Concrete sample records used by the witnesses. -/
def exAct1 : Activity :=
  { id := "a1", type := .harvest, date := "2024-05-01T08:00:00Z",
    description := "picked 3kg", photos := [],
    createdAt := "2024-05-01T08:00:00Z", updatedAt := "2024-05-01T08:00:00Z" }

def exAct2 : Activity :=
  { id := "a2", type := .fertilize, date := "2024-05-02T08:00:00Z",
    description := "fertilized", photos := [],
    createdAt := "2024-05-02T08:00:00Z", updatedAt := "2024-05-02T08:00:00Z" }

/-- Concrete stand-in for `new Date(s).getTime()` on the sample dates. -/
def exTime : String → Int :=
  fun s => if s = "2024-05-01T08:00:00Z" then 1714550400000 else 1714636800000

theorem save_then_getAll_witness :
    filterById "a2" (storageSave exTime exAct2 [exAct1]) = [exAct2] :=
  (save_then_getAll exTime exAct2 [exAct1] (by decide)).1

/-- C8: after `delete(id)`, `getAll()` contains no record with that id;
deleting an id that is absent is a no-op, not an error. -/
theorem delete_then_getAll (i : String) (l : List Activity) :
    (∀ a ∈ storageDelete i l, a.id ≠ i)
    ∧ ((∀ a ∈ l, a.id ≠ i) → storageDelete i l = l) := by
  constructor
  · intro a ha
    have := List.of_mem_filter ha
    simpa using this
  · intro h
    rw [storageDelete, List.filter_eq_self]
    intro a ha
    simpa using h a ha

theorem delete_then_getAll_witness :
    storageDelete "zz" [exAct1] = [exAct1] :=
  (delete_then_getAll "zz" [exAct1]).2 (by decide)

/-! ### Tree store (`services/tree.ts`) and backup round-trip
(`BackOffice.tsx` `handleExport` / `handleImport`) -/

/-- The upsert step of `treeService.save` (same `findIndex` +
replace-or-push shape as for activities). -/
def upsertTree (t : Tree) : List Tree → List Tree
  | [] => [t]
  | a :: rest => if a.id = t.id then t :: rest else a :: upsertTree t rest

/-- The tree sort order of `treeService.save`:
`(a, b) => a.treeId.localeCompare(b.treeId)`, i.e. code ascending. -/
def codeAsc (a b : Tree) : Prop := a.treeId ≤ b.treeId

instance : DecidableRel codeAsc := fun a b =>
  inferInstanceAs (Decidable (a.treeId ≤ b.treeId))

/-- `treeService.save`: upsert by id, then re-sort by tree code. -/
def treeSave (t : Tree) (l : List Tree) : List Tree :=
  (upsertTree t l).insertionSort codeAsc

/-- Pairwise-distinct tree record ids. -/
def distinctTreeIds (l : List Tree) : Prop :=
  l.Pairwise (fun a b => a.id ≠ b.id)

instance (l : List Tree) : Decidable (distinctTreeIds l) :=
  inferInstanceAs (Decidable (l.Pairwise _))

/-- The structured backup object built by `handleExport` (JSON path):
`{activities, trees, exportDate, version: '1.0.0'}`. -/
structure BackupData where
  activities : List Activity
  trees : List Tree
  exportDate : String
  version : String
deriving DecidableEq, Repr

/-- `handleExport` (JSON path): packs the two stores into a backup. -/
def exportBackup (acts : List Activity) (trees : List Tree) (exportDate : String) :
    BackupData :=
  { activities := acts, trees := trees, exportDate := exportDate, version := "1.0.0" }

/-- `handleImport`: `data.activities.forEach(a => storageService.save(a))`. -/
def importActivities (time : String → Int) (acts : List Activity)
    (store : List Activity) : List Activity :=
  acts.foldl (fun st a => storageSave time a st) store

/-- `handleImport`: `data.trees.forEach(t => treeService.save(t))`. -/
def importTrees (trees : List Tree) (store : List Tree) : List Tree :=
  trees.foldl (fun st t => treeSave t st) store

/-- `handleImport` on a backup payload, against given store states. -/
def importBackup (time : String → Int) (b : BackupData)
    (actStore : List Activity) (treeStore : List Tree) :
    List Activity × List Tree :=
  (importActivities time b.activities actStore, importTrees b.trees treeStore)

theorem upsertTree_of_fresh (t : Tree) :
    ∀ l : List Tree, (∀ a ∈ l, a.id ≠ t.id) →
      upsertTree t l = l ++ [t] := by
  intro l
  induction l with
  | nil => intro _; simp [upsertTree]
  | cons a rest ih =>
    intro h
    have hne : a.id ≠ t.id := h a (List.mem_cons_self a rest)
    simp only [upsertTree, if_neg hne, List.cons_append, List.cons.injEq, true_and]
    exact ih (fun b hb => h b (List.mem_cons_of_mem a hb))

theorem storageSave_perm_append (time : String → Int) (r : Activity)
    (l : List Activity) (h : ∀ a ∈ l, a.id ≠ r.id) :
    (storageSave time r l).Perm (l ++ [r]) := by
  have := storageSave_perm_upsert time r l
  rwa [upsertActivity_of_fresh r l h] at this

theorem treeSave_perm_upsert (t : Tree) (l : List Tree) :
    (treeSave t l).Perm (upsertTree t l) :=
  List.perm_insertionSort codeAsc (upsertTree t l)

theorem treeSave_perm_append (t : Tree) (l : List Tree)
    (h : ∀ a ∈ l, a.id ≠ t.id) :
    (treeSave t l).Perm (l ++ [t]) := by
  have := treeSave_perm_upsert t l
  rwa [upsertTree_of_fresh t l h] at this

theorem importActivities_perm (time : String → Int) :
    ∀ (acts : List Activity) (st : List Activity),
      distinctIds (st ++ acts) →
      (importActivities time acts st).Perm (st ++ acts) := by
  intro acts
  induction acts with
  | nil => intro st _; simp [importActivities]
  | cons a acts ih =>
    intro st h
    have hsym : Symmetric (fun x y : Activity => x.id ≠ y.id) :=
      fun x y hxy => fun e => hxy e.symm
    rw [distinctIds, List.pairwise_append] at h
    obtain ⟨hst, hcons, hcross⟩ := h
    have hfresh : ∀ x ∈ st, x.id ≠ a.id :=
      fun x hx => hcross x hx a (List.mem_cons_self a acts)
    have hp1 : (storageSave time a st).Perm (st ++ [a]) :=
      storageSave_perm_append time a st hfresh
    have hperm2 : (storageSave time a st ++ acts).Perm (st ++ a :: acts) := by
      have := hp1.append_right acts
      rwa [List.append_assoc, List.singleton_append] at this
    have hdist : distinctIds (storageSave time a st ++ acts) := by
      rw [distinctIds]
      refine (List.Perm.pairwise_iff (R := fun x y : Activity => x.id ≠ y.id)
        (fun hxy => hsym hxy) hperm2).mpr ?_
      rw [List.pairwise_append]
      exact ⟨hst, hcons, hcross⟩
    have hrec := ih (storageSave time a st) hdist
    have hfold : importActivities time (a :: acts) st
        = importActivities time acts (storageSave time a st) := rfl
    rw [hfold]
    exact hrec.trans hperm2

theorem importTrees_perm :
    ∀ (trees : List Tree) (st : List Tree),
      distinctTreeIds (st ++ trees) →
      (importTrees trees st).Perm (st ++ trees) := by
  intro trees
  induction trees with
  | nil => intro st _; simp [importTrees]
  | cons t trees ih =>
    intro st h
    have hsym : Symmetric (fun x y : Tree => x.id ≠ y.id) :=
      fun x y hxy => fun e => hxy e.symm
    rw [distinctTreeIds, List.pairwise_append] at h
    obtain ⟨hst, hcons, hcross⟩ := h
    have hfresh : ∀ x ∈ st, x.id ≠ t.id :=
      fun x hx => hcross x hx t (List.mem_cons_self t trees)
    have hp1 : (treeSave t st).Perm (st ++ [t]) :=
      treeSave_perm_append t st hfresh
    have hperm2 : (treeSave t st ++ trees).Perm (st ++ t :: trees) := by
      have := hp1.append_right trees
      rwa [List.append_assoc, List.singleton_append] at this
    have hdist : distinctTreeIds (treeSave t st ++ trees) := by
      rw [distinctTreeIds]
      refine (List.Perm.pairwise_iff (R := fun x y : Tree => x.id ≠ y.id)
        (fun hxy => hsym hxy) hperm2).mpr ?_
      rw [List.pairwise_append]
      exact ⟨hst, hcons, hcross⟩
    have hrec := ih (treeSave t st) hdist
    have hfold : importTrees (t :: trees) st
        = importTrees trees (treeSave t st) := rfl
    rw [hfold]
    exact hrec.trans hperm2

/-- C2: exporting the structured backup and importing it into freshly
cleared stores reproduces the original activity and tree records (same
ids, same field values), for well-formed non-empty collections. -/
theorem backup_roundtrip (time : String → Int) (acts : List Activity)
    (trees : List Tree) (d : String)
    (ha : distinctIds acts) (ht : distinctTreeIds trees)
    (_hna : acts ≠ []) (_hnt : trees ≠ []) :
    ((importBackup time (exportBackup acts trees d) [] []).1).Perm acts
    ∧ ((importBackup time (exportBackup acts trees d) [] []).2).Perm trees := by
  constructor
  · have := importActivities_perm time acts [] (by simpa [distinctIds] using ha)
    simpa [importBackup, exportBackup] using this
  · have := importTrees_perm trees [] (by simpa [distinctTreeIds] using ht)
    simpa [importBackup, exportBackup] using this

/-- Concrete sample tree used by the witnesses. -/
def exTree1 : Tree :=
  { id := "t1", treeId := "No.042",
    createdAt := "2024-04-01T00:00:00Z", updatedAt := "2024-04-01T00:00:00Z" }

theorem backup_roundtrip_witness :
    ((importBackup exTime (exportBackup [exAct1] [exTree1] "2024-06-01") [] []).1).Perm
      [exAct1] :=
  (backup_roundtrip exTime [exAct1] [exTree1] "2024-06-01"
    (by decide) (by decide) (by decide) (by decide)).1

/-! ### CSV export (`storageService.exportToCSV` and the CSV branch of
`BackOffice.tsx` `handleExport`) -/

/-- JS `Array.join(sep)`. -/
def joinStr (sep : String) : List String → String
  | [] => ""
  | [s] => s
  | s :: s2 :: rest => s ++ sep ++ joinStr sep (s2 :: rest)

/-- `.replace(/,/g, '，')`: every ASCII comma becomes the full-width
comma U+FF0C. -/
def replaceCommas (s : String) : String :=
  String.mk (s.data.map (fun c => if c = ',' then '，' else c))

/-- `` `"${cell}"` ``: a cell wrapped in double quotes. -/
def quoteCell (s : String) : String := "\"" ++ s ++ "\""

/-- `numericValue?.toString() || ''` and friends. -/
def optIntStr : Option Int → String
  | none => ""
  | some n => toString n

/-- `activity.weather?.condition || ''`. -/
def weatherCondCell (a : Activity) : String :=
  match a.weather with
  | none => ""
  | some w => w.condition.toStr

/-- `activity.weather?.temperature?.toString() || ''`. -/
def weatherTempCell (a : Activity) : String :=
  match a.weather with
  | none => ""
  | some w => toString w.temperature

/-- `activity.aiDiagnosis?.advice?.replace(/,/g, '，') || ''`. -/
def csvAdviceCell (a : Activity) : String :=
  match a.aiDiagnosis with
  | none => ""
  | some d => replaceCommas d.advice

/-- The 12 fixed header labels of `exportToCSV`. -/
def csvHeaders : List String :=
  ["ID", "タイプ", "日付", "木番号", "説明", "数値", "単位",
   "写真数", "天気", "気温", "AI診断", "作成日時"]

/-- One data row of `exportToCSV`, before quoting. -/
def csvCells (a : Activity) : List String :=
  [a.id, a.type.toStr, a.date, a.treeId.getD "",
   replaceCommas a.description, optIntStr a.numericValue,
   a.numericUnit.getD "", toString a.photos.length,
   weatherCondCell a, weatherTempCell a, csvAdviceCell a, a.createdAt]

/-- `headers.join(',')`: the header line, fields NOT quoted. -/
def csvHeaderLine : String := joinStr "," csvHeaders

/-- `row.map(cell => `"${cell}"`).join(',')`: a data line, every field
quoted. -/
def csvRowLine (a : Activity) : String :=
  joinStr "," ((csvCells a).map quoteCell)

/-- The lines joined by `'\n'` in `exportToCSV`. -/
def exportLines (l : List Activity) : List String :=
  csvHeaderLine :: l.map csvRowLine

/-- `storageService.exportToCSV`. -/
def exportToCSV (l : List Activity) : String :=
  if l = [] then "" else joinStr "\n" (exportLines l)

/-- The CSV branch of `BackOffice.tsx` `handleExport` builds the Blob
directly from the CSV string: `new Blob([csv], ...)`, with no BOM
prepended. -/
def exportBlobContent (l : List Activity) : String := exportToCSV l

/-- Whether a string starts with the UTF-8 byte-order mark U+FEFF. -/
def startsWithBOM (s : String) : Bool := s.data.head? == some '\uFEFF'

/-- Whether a string is free of the double-quote character. -/
def noQuoteChar (s : String) : Bool := s.data.all (fun c => c != '"')

/-- Whether a string is free of the ASCII comma. -/
def noAsciiComma (s : String) : Bool := s.data.all (fun c => c != ',')

theorem data_append (a b : String) : (a ++ b).data = a.data ++ b.data := rfl

theorem joinStr_head_data (sep : String) (s : String) (rest : List String) :
    ∃ t, (joinStr sep (s :: rest)).data = s.data ++ t := by
  cases rest with
  | nil => exact ⟨[], by simp [joinStr]⟩
  | cons s2 r =>
    refine ⟨sep.data ++ (joinStr sep (s2 :: r)).data, ?_⟩
    show ((s ++ sep) ++ joinStr sep (s2 :: r)).data = _
    rw [data_append, data_append, List.append_assoc]

/-- C3 counterexample record: a non-empty activity whose description
contains an ASCII comma. -/
def cexActivity : Activity :=
  { id := "a1", type := .harvest, date := "2024-05-01T08:00:00Z",
    description := "picked, 3kg", photos := [],
    createdAt := "2024-05-01T08:00:00Z", updatedAt := "2024-05-01T08:00:00Z" }

/-- C3 counterexample: on a concrete non-empty collection the exported
blob content does NOT start with a byte-order mark (its first character
is the `I` of the `ID` header label), and the header line contains no
double quote at all, so its fields are not individually quoted. -/
theorem csv_export_claim_cex :
    startsWithBOM (exportBlobContent [cexActivity]) = false
    ∧ noQuoteChar csvHeaderLine = true := by
  constructor
  · rfl
  · rfl

/-- C3 (amended): for every non-empty collection the export output is
NOT prefixed with a BOM (it starts with the header line, whose first
character is `I`); header-row fields are unquoted (the header line has
no double-quote character); every data-row field is individually
enclosed in double quotes; and ASCII commas in the free-text fields
(description and AI advice) are replaced by the full-width comma before
quoting, so a replaced cell contains no ASCII comma. -/
theorem csv_export_format (l : List Activity) (h : l ≠ []) :
    startsWithBOM (exportToCSV l) = false
    ∧ noQuoteChar csvHeaderLine = true
    ∧ (∀ s : String, (quoteCell s).data.head? = some '"'
        ∧ (quoteCell s).data.getLast? = some '"')
    ∧ (∀ s : String, noAsciiComma (replaceCommas s) = true) := by
  refine ⟨?_, rfl, ?_, ?_⟩
  · rw [exportToCSV, if_neg h]
    obtain ⟨t, ht⟩ := joinStr_head_data "\n" csvHeaderLine (l.map csvRowLine)
    rw [startsWithBOM, exportLines, ht]
    have hhd : csvHeaderLine.data = 'I' :: ("D,タイプ,日付,木番号,説明,数値,単位,写真数,天気,気温,AI診断,作成日時".data) := by
      rfl
    rw [hhd]
    rfl
  · intro s
    constructor
    · show (("\"" ++ s) ++ "\"").data.head? = some '"'
      rw [data_append, data_append]
      rfl
    · show (("\"" ++ s) ++ "\"").data.getLast? = some '"'
      rw [data_append]
      exact List.getLast?_concat _
  · intro s
    rw [replaceCommas, noAsciiComma]
    show (s.data.map _).all _ = true
    rw [List.all_map, List.all_eq_true]
    intro c _
    by_cases hc : c = ','
    · simp [Function.comp, hc]
    · simp [Function.comp, hc]

theorem csv_export_format_witness :
    startsWithBOM (exportToCSV [cexActivity]) = false :=
  (csv_export_format [cexActivity] (by decide)).1

/-- C7: exporting zero records yields the empty string; exporting N ≥ 1
records yields the newline-join of N+1 lines (one header plus one data
row per record), where the header carries 12 labels and every data row
is built from exactly 12 cells. -/
theorem exportToCSV_shape (l : List Activity) (h : l ≠ []) :
    exportToCSV [] = ""
    ∧ exportToCSV l = joinStr "\n" (exportLines l)
    ∧ (exportLines l).length = l.length + 1
    ∧ csvHeaders.length = 12
    ∧ (∀ a : Activity, (csvCells a).length = 12) := by
  refine ⟨rfl, ?_, ?_, rfl, fun a => rfl⟩
  · rw [exportToCSV, if_neg h]
  · simp [exportLines]

theorem exportToCSV_shape_witness :
    (exportLines [cexActivity]).length = 1 + 1 :=
  (exportToCSV_shape [cexActivity] (by decide)).2.2.1

/-! ### Reminder engine (`services/reminder.ts`) -/

/-- `Reminder` from `services/reminder.ts`. -/
structure Reminder where
  id : String
  type : ActivityType
  intervalDays : Int
  enabled : Bool
  lastNotified : Option String := none
deriving DecidableEq, Repr

/-- `NotificationKind` is the `'reminder' | 'inactivity' | 'info'`
union of the `Notification` type. -/
inductive NotificationKind
  | reminder | inactivity | info
deriving DecidableEq, Repr

/-- `Notification` from `services/reminder.ts`. -/
structure Notification where
  id : String
  type : NotificationKind
  title : String
  message : String
  activityType : Option ActivityType := none
  createdAt : String
  read : Bool
deriving DecidableEq, Repr

/-- `1000 * 60 * 60 * 24`, the millisecond divisor of the days-since
computation. -/
def msPerDay : Int := 1000 * 60 * 60 * 24

/-- `Math.floor((now - last) / msPerDay)`: floor division on the
millisecond difference. -/
def daysSince (now last : Int) : Int := (now - last).fdiv msPerDay

/-- The most recent activity of a type:
`activities.filter(a => a.type === t).sort(dateDesc)[0]`. -/
def lastActivityOfType (time : String → Int) (acts : List Activity)
    (t : ActivityType) : Option Activity :=
  ((acts.filter (fun a => a.type == t)).insertionSort (dateDesc time)).head?

/-- The per-reminder body of `checkReminders`: skip when disabled or
already notified today; otherwise due when there is no activity of the
type at all, or when the floored day difference reaches the interval. -/
def reminderFires (time : String → Int) (now : Int) (today : String)
    (acts : List Activity) (r : Reminder) : Bool :=
  if !r.enabled then false
  else if r.lastNotified == some today then false
  else
    match lastActivityOfType time acts r.type with
    | none => true
    | some a => decide (r.intervalDays ≤ daysSince now (time a.date))

/-- C4: for an enabled reminder not yet notified today, the reminder
fires exactly when there is no activity of its type at all, or when
`floor((now - lastActivityDate) / msPerDay) ≥ intervalDays`; in
particular an interval of 30 days with the last matching activity
exactly 30 days ago is due, and 29 days ago is not (see the witness). -/
theorem reminder_due (time : String → Int) (now : Int) (today : String)
    (acts : List Activity) (r : Reminder)
    (he : r.enabled = true) (hn : r.lastNotified ≠ some today) :
    (lastActivityOfType time acts r.type = none →
      reminderFires time now today acts r = true)
    ∧ (∀ a : Activity, lastActivityOfType time acts r.type = some a →
        (reminderFires time now today acts r = true
          ↔ r.intervalDays ≤ daysSince now (time a.date))) := by
  have hne : (r.lastNotified == some today) = false := by
    simp [hn]
  constructor
  · intro hnone
    rw [reminderFires, he, hne, hnone]
    rfl
  · intro a hsome
    rw [reminderFires, he, hne, hsome]
    simp

/-- Concrete day stamps for the reminder witness: `"d0"` parses to
epoch 0 and `"d1"` to one day later. -/
def wTime : String → Int := fun s => if s = "d1" then 86400000 else 0

/-- An activity dated at `"d0"` (epoch 0). -/
def wAct0 : Activity :=
  { id := "w0", type := .fertilize, date := "d0", description := "x",
    photos := [], createdAt := "d0", updatedAt := "d0" }

/-- An activity dated at `"d1"` (one day after epoch 0). -/
def wAct1 : Activity :=
  { id := "w1", type := .fertilize, date := "d1", description := "x",
    photos := [], createdAt := "d1", updatedAt := "d1" }

/-- The default fertilize reminder: 30-day interval, enabled, never
notified. -/
def wRem : Reminder :=
  { id := "fertilize", type := .fertilize, intervalDays := 30, enabled := true }

theorem reminder_due_witness :
    reminderFires wTime 2592000000 "today" [wAct0] wRem = true
    ∧ reminderFires wTime 2592000000 "today" [wAct1] wRem = false
    ∧ reminderFires wTime 2592000000 "today" [] wRem = true := by
  refine ⟨?_, ?_, ?_⟩
  · exact ((reminder_due wTime 2592000000 "today" [wAct0] wRem rfl (by decide)).2
      wAct0 (by decide)).mpr (by decide)
  · have h := ((reminder_due wTime 2592000000 "today" [wAct1] wRem rfl (by decide)).2
      wAct1 (by decide))
    by_contra hc
    have ht : reminderFires wTime 2592000000 "today" [wAct1] wRem = true := by
      revert hc
      cases reminderFires wTime 2592000000 "today" [wAct1] wRem <;> simp
    exact absurd (h.mp ht) (by decide)
  · exact (reminder_due wTime 2592000000 "today" [] wRem rfl (by decide)).1 (by decide)

/-! ### Notification cap (`addNotification` and the save step of
`checkReminders`) -/

/-- `reminderService.addNotification`: `unshift` the new notification,
then `pop` the last (oldest) entry when the list exceeds 50. -/
def addNotification (n : Notification) (l : List Notification) : List Notification :=
  let l2 := n :: l
  if l2.length > 50 then l2.dropLast else l2

/-- The save step at the end of `checkReminders`:
`allNotifications.length = 50` truncates the combined list to its
first 50 entries before saving; nothing is written when no new
notification was produced. -/
def checkSaveNotifications (newN existing : List Notification) : List Notification :=
  if newN.length > 0 then
    (if (newN ++ existing).length > 50 then (newN ++ existing).take 50
     else newN ++ existing)
  else existing

/-- C5: adding to a 50-entry list evicts exactly the oldest entry,
leaving 50 entries with the new one first and the newest-first order of
the surviving 49 preserved; and neither `addNotification` nor the
`checkReminders` save step ever grows a ≤50-entry collection past 50. -/
theorem notification_cap (n : Notification) (l : List Notification)
    (h : l.length = 50) :
    addNotification n l = n :: l.take 49
    ∧ (addNotification n l).length = 50
    ∧ (∀ (m : Notification) (l2 : List Notification), l2.length ≤ 50 →
        (addNotification m l2).length ≤ 50)
    ∧ (∀ newN existing : List Notification, existing.length ≤ 50 →
        (checkSaveNotifications newN existing).length ≤ 50) := by
  have hgt : (n :: l).length > 50 := by simp [h]
  have hdrop : addNotification n l = (n :: l).dropLast := by
    rw [addNotification]
    simp only [if_pos hgt]
  refine ⟨?_, ?_, ?_, ?_⟩
  · rw [hdrop, List.dropLast_eq_take]
    have hlen : (n :: l).length - 1 = 50 := by simp [h]
    rw [hlen]
    rw [List.take_cons]
    omega
  · rw [hdrop, List.length_dropLast]
    simp [h]
  · intro m l2 hl2
    rw [addNotification]
    by_cases hc : (m :: l2).length > 50
    · simp only [if_pos hc, List.length_dropLast]
      simp at hc ⊢
      omega
    · simp only [if_neg hc]
      simp at hc ⊢
      omega
  · intro newN existing hex
    rw [checkSaveNotifications]
    by_cases h1 : newN.length > 0
    · simp only [if_pos h1]
      by_cases h2 : (newN ++ existing).length > 50
      · simp only [if_pos h2, List.length_take]
        omega
      · simp only [if_neg h2]
        omega
    · simp only [if_neg h1]
      exact hex

/-- A sample unread notification. -/
def exNotif : Notification :=
  { id := "n1", type := .reminder, title := "t", message := "m",
    createdAt := "2024-05-01T08:00:00Z", read := false }

theorem notification_cap_witness :
    (addNotification exNotif (List.replicate 50 exNotif)).length = 50 :=
  (notification_cap exNotif (List.replicate 50 exNotif) (by simp)).2.1

/-! ### markAllAsRead / getUnreadCount (`services/reminder.ts`) -/

/-- `reminderService.markAllAsRead`: `forEach(n => n.read = true)`. -/
def markAllAsRead (l : List Notification) : List Notification :=
  l.map (fun n => { n with read := true })

/-- `reminderService.getUnreadCount`: `filter(n => !n.read).length`. -/
def getUnreadCount (l : List Notification) : Nat :=
  (l.filter (fun n => !n.read)).length

/-- Every field of a notification except the `read` flag. -/
def notificationBase (n : Notification) :
    String × NotificationKind × String × String × Option ActivityType × String :=
  (n.id, n.type, n.title, n.message, n.activityType, n.createdAt)

/-- C10: `markAllAsRead` leaves the list's length, order and every
field other than `read` unchanged, and afterwards `getUnreadCount`
returns 0 (so every `read` flag is true). -/
theorem markAllAsRead_frame (l : List Notification) :
    getUnreadCount (markAllAsRead l) = 0
    ∧ (markAllAsRead l).map notificationBase = l.map notificationBase
    ∧ (markAllAsRead l).length = l.length := by
  refine ⟨?_, ?_, by simp [markAllAsRead]⟩
  · rw [getUnreadCount, markAllAsRead, List.filter_map]
    have : (fun n : Notification => !n.read)
        ∘ (fun n : Notification => ({ n with read := true } : Notification)) =
        fun _ => false := by
      funext n
      rfl
    rw [this]
    simp
  · rw [markAllAsRead, List.map_map]
    rfl

/-! ### Sheets sync client (`services/sheets.ts`) -/

/-- `activity.weather?.humidity?.toString() || ''`. -/
def weatherHumCell (a : Activity) : String :=
  match a.weather with
  | none => ""
  | some w => optIntStr w.humidity

/-- `activity.aiDiagnosis?.disease || ''`. -/
def diagDiseaseCell (a : Activity) : String :=
  match a.aiDiagnosis with
  | none => ""
  | some d => d.disease.getD ""

/-- `activity.aiDiagnosis?.pest || ''`. -/
def diagPestCell (a : Activity) : String :=
  match a.aiDiagnosis with
  | none => ""
  | some d => d.pest.getD ""

/-- `activity.aiDiagnosis?.ripeness || ''`. -/
def diagRipenessCell (a : Activity) : String :=
  match a.aiDiagnosis with
  | none => ""
  | some d => d.ripeness.getD ""

/-- `activity.aiDiagnosis?.advice || ''` (the sync row does not replace
commas). -/
def diagAdviceCell (a : Activity) : String :=
  match a.aiDiagnosis with
  | none => ""
  | some d => d.advice

/-- `sheetsService.activityToRow`. The locale renderings
`date.toLocaleDateString('ja-JP')` and `date.toLocaleTimeString('ja-JP')`
of the parsed activity date are modelled by the explicit parameters
`locDate` and `locTime`. -/
def activityToRow (locDate locTime : String → String) (a : Activity) :
    List String :=
  [a.id, a.type.toStr, locDate a.date, locTime a.date, a.treeId.getD "",
   a.description, optIntStr a.numericValue, a.numericUnit.getD "",
   toString a.photos.length,
   weatherCondCell a, weatherTempCell a, weatherHumCell a,
   diagDiseaseCell a, diagPestCell a, diagRipenessCell a, diagAdviceCell a,
   a.createdAt, a.updatedAt]

/-- C6: every sync row has exactly 18 positions in the fixed order; on
a record with every optional field absent, every optional-field
position is the empty string — never the literal text `null` or
`undefined`. -/
theorem activityToRow_shape (locDate locTime : String → String) (a : Activity)
    (h1 : a.treeId = none) (h2 : a.numericValue = none)
    (h3 : a.numericUnit = none) (h4 : a.weather = none)
    (h5 : a.aiDiagnosis = none) :
    (∀ b : Activity, (activityToRow locDate locTime b).length = 18)
    ∧ activityToRow locDate locTime a =
        [a.id, a.type.toStr, locDate a.date, locTime a.date, "",
         a.description, "", "", toString a.photos.length,
         "", "", "", "", "", "", "", a.createdAt, a.updatedAt] := by
  refine ⟨fun b => rfl, ?_⟩
  rw [activityToRow]
  rw [weatherCondCell, weatherTempCell, weatherHumCell, diagDiseaseCell,
    diagPestCell, diagRipenessCell, diagAdviceCell]
  rw [h1, h2, h3, h4, h5]
  rfl

/-- An activity with every optional field absent. -/
def bareActivity : Activity :=
  { id := "b1", type := .observe, date := "2024-05-03T08:00:00Z",
    description := "looked around", photos := ["p1", "p2"],
    createdAt := "2024-05-03T08:05:00Z", updatedAt := "2024-05-03T08:05:00Z" }

/-- Concrete stand-ins for the ja-JP locale renderings of the sample
date. -/
def exLocDate : String → String := fun _ => "2024/5/3"

def exLocTime : String → String := fun _ => "17:00:00"

theorem activityToRow_shape_witness :
    activityToRow exLocDate exLocTime bareActivity =
      ["b1", "observe", "2024/5/3", "17:00:00", "", "looked around", "", "",
       "2", "", "", "", "", "", "", "", "2024-05-03T08:05:00Z",
       "2024-05-03T08:05:00Z"] :=
  (activityToRow_shape exLocDate exLocTime bareActivity
    rfl rfl rfl rfl rfl).2

/-! ### Sheets configuration (`sheetsService.getConfig` /
`saveConfig` / `syncActivity`) -/

/-- The two persisted configuration slots
(`beanlog_sheet_id` / `beanlog_sheet_name`); `none` models an absent
key (`localStorage.getItem` returning `null`). -/
structure ConfigStore where
  sheetId : Option String := none
  sheetName : Option String := none
deriving DecidableEq, Repr

/-- `SheetsConfig` from `services/sheets.ts`. -/
structure SheetsConfig where
  spreadsheetId : String
  sheetName : String
deriving DecidableEq, Repr

/-- JS truthiness of a nullable string: `null` and `''` are falsy. -/
def truthyOpt : Option String → Bool
  | none => false
  | some s => s != ""

/-- `sheetsService.getConfig`: returns the config only when
`if (id && name)` passes, i.e. both slots are present and non-empty. -/
def getConfig (st : ConfigStore) : Option SheetsConfig :=
  match st.sheetId, st.sheetName with
  | some i, some n => if i ≠ "" ∧ n ≠ "" then some ⟨i, n⟩ else none
  | _, _ => none

/-- `sheetsService.saveConfig`: writes both slots. -/
def saveConfig (c : SheetsConfig) (st : ConfigStore) : ConfigStore :=
  { st with sheetId := some c.spreadsheetId, sheetName := some c.sheetName }

/-- The failure modes of `syncActivity`: the missing-spreadsheet
configuration error, the missing script URL error, and a non-ok HTTP
response. -/
inductive SyncError
  | missingConfig
  | missingScriptUrl
  | httpError (status : Nat)
deriving DecidableEq, Repr

/-- The JSON body `syncActivity` POSTs to the Apps Script endpoint. -/
structure SyncRequest where
  action : String
  spreadsheetId : String
  sheetName : String
  row : List String
deriving DecidableEq, Repr

/-- `sheetsService.syncActivity`: fails first on a missing config, then
on a missing script URL; otherwise POSTs the append request, raising on
a non-ok response (`responseOk`/`responseStatus` model the fetch
outcome). -/
def syncActivity (locDate locTime : String → String) (st : ConfigStore)
    (scriptUrl : Option String) (responseOk : Bool) (responseStatus : Nat)
    (a : Activity) : Except SyncError SyncRequest :=
  match getConfig st with
  | none => .error .missingConfig
  | some config =>
    if truthyOpt scriptUrl then
      (if responseOk then
        .ok { action := "append", spreadsheetId := config.spreadsheetId,
              sheetName := config.sheetName,
              row := activityToRow locDate locTime a }
      else .error (.httpError responseStatus))
    else .error .missingScriptUrl

/-- C9: `getConfig` yields a config only when both stored slots are
present and non-empty (and then returns exactly those values); after
`saveConfig` with an empty spreadsheet id or sheet name, `getConfig`
yields `null` and any subsequent `syncActivity` fails immediately with
the missing-configuration error, regardless of the script URL or fetch
outcome. -/
theorem config_validation (st : ConfigStore) (c : SheetsConfig)
    (h : c.spreadsheetId = "" ∨ c.sheetName = "") :
    (∀ (st2 : ConfigStore) (cfg : SheetsConfig), getConfig st2 = some cfg →
      st2.sheetId = some cfg.spreadsheetId ∧ st2.sheetName = some cfg.sheetName
      ∧ cfg.spreadsheetId ≠ "" ∧ cfg.sheetName ≠ "")
    ∧ getConfig (saveConfig c st) = none
    ∧ (∀ (u : Option String) (ok : Bool) (status : Nat)
        (locDate locTime : String → String) (a : Activity),
        syncActivity locDate locTime (saveConfig c st) u ok status a
          = .error .missingConfig) := by
  have hnone : getConfig (saveConfig c st) = none := by
    rw [saveConfig, getConfig]
    simp only
    rw [if_neg]
    intro hcc
    rcases h with h | h
    · exact hcc.1 h
    · exact hcc.2 h
  refine ⟨?_, hnone, ?_⟩
  · intro st2 cfg hcfg
    rw [getConfig] at hcfg
    cases hsi : st2.sheetId with
    | none => rw [hsi] at hcfg; cases hcfg
    | some i =>
      cases hsn : st2.sheetName with
      | none => rw [hsi, hsn] at hcfg; cases hcfg
      | some n =>
        rw [hsi, hsn] at hcfg
        have hcfg2 : (if i ≠ "" ∧ n ≠ "" then some (⟨i, n⟩ : SheetsConfig)
            else none) = some cfg := hcfg
        by_cases hcc : i ≠ "" ∧ n ≠ ""
        · rw [if_pos hcc] at hcfg2
          cases hcfg2
          exact ⟨rfl, rfl, hcc.1, hcc.2⟩
        · rw [if_neg hcc] at hcfg2
          cases hcfg2
  · intro u ok status locDate locTime a
    rw [syncActivity, hnone]

/-- A config whose spreadsheet id is empty. -/
def emptyIdConfig : SheetsConfig := { spreadsheetId := "", sheetName := "Sheet1" }

theorem config_validation_witness :
    getConfig (saveConfig emptyIdConfig {}) = none
    ∧ syncActivity exLocDate exLocTime (saveConfig emptyIdConfig {})
        (some "https://script.example") true 200 bareActivity
        = .error .missingConfig := by
  have h := config_validation {} emptyIdConfig (Or.inl rfl)
  exact ⟨h.2.1, h.2.2 (some "https://script.example") true 200
    exLocDate exLocTime bareActivity⟩

end CoffeeApp
